import Mathlib

/-!
Shallow embedding of the RAG orchestration layer of the conversational
assistant: query expansion / enhanced embedding (src/services/embeddings.ts),
retrieval context assembly and message formatting (src/services/ai.ts),
conversation history and feedback persistence (src/services/conversations.ts),
and the guest-to-authenticated migration handler (src/App.tsx).

Numbers: embedding components are modelled over the reals (the source uses
IEEE doubles; `Math.sqrt` is modelled by `Real.sqrt`); retrieval scores over
the rationals.  Firestore's `serverTimestamp()` sentinel is a dedicated
constructor of `TimestampValue`.  Asynchronous service calls are modelled by
passing their results (embeddings, server-assigned ids, reloaded lists) as
parameters; a fallible storage call is modelled by a success flag.
-/

namespace Cabej

/-- Message role, `'user' | 'assistant'` in the source. -/
inductive Role where
  | user
  | assistant
deriving DecidableEq, Repr

/-- Feedback tri-state is `'helpful' | 'notHelpful' | null`; the `null` /
absent case is `Option.none` at the use sites. -/
inductive Feedback where
  | helpful
  | notHelpful
deriving DecidableEq, Repr

/-- A Firestore timestamp-valued field: the `serverTimestamp()` sentinel, a
client-side numeric instant, or `null`. -/
inductive TimestampValue where
  | server
  | client (t : Int)
  | null
deriving DecidableEq, Repr

/-- `Message` from src/services/conversations.ts:
`{id, content, role, timestamp: number, feedback?}`. -/
structure Message where
  id : String
  content : String
  role : Role
  timestamp : Int
  feedback : Option Feedback := none
deriving DecidableEq, Repr

/-- `userType: 'guest' | 'auth'`. -/
inductive UserType where
  | guest
  | auth
deriving DecidableEq, Repr

/-- Firebase `User`: a stable uid plus an email that may be `null`. -/
structure User where
  uid : String
  email : Option String
deriving DecidableEq, Repr

/-- `Conversation` (with required id) from src/services/conversations.ts. -/
structure Conversation where
  id : String
  input : String
  response : String
  createdAt : TimestampValue
  userId : Option String
  userType : UserType
  userEmail : Option String
  history : Option (List Message)
deriving DecidableEq, Repr

/-- A conversation document as stored by `addDoc` (no client id; the store
assigns one).  Mirrors `BaseConversation`. -/
structure BaseConversation where
  input : String
  response : String
  createdAt : TimestampValue
  userId : Option String
  userType : UserType
  userEmail : Option String
  history : Option (List Message)
deriving DecidableEq, Repr

/-- A Pinecone retrieval match as consumed by `generateResponse`:
`score` may be `undefined`, and `metadata?.text` may be missing. -/
structure RetrievalMatch where
  score : Option ℚ
  metadataText : Option String
deriving DecidableEq, Repr

/-- The `{role, content}` pair sent to the completion service. -/
structure ChatMessage where
  role : Role
  content : String
deriving DecidableEq, Repr

/-! ## Retrieval context assembly (src/services/ai.ts, Step 3) -/

/-- The filter predicate `match.score !== undefined && match.score > 0.7`. -/
def passesThreshold (m : RetrievalMatch) : Bool :=
  match m.score with
  | some s => decide ((7 : ℚ)/10 < s)
  | none => false

/-- The match text `match.metadata?.text || ''`. -/
def matchText (m : RetrievalMatch) : String :=
  m.metadataText.getD ""

/-- Step 3 of `generateResponse`:
`matches.filter(score !== undefined && score > 0.7).map(metadata?.text || '').join('\n\n')`. -/
def buildContext (ms : List RetrievalMatch) : String :=
  String.intercalate "\n\n" ((ms.filter passesThreshold).map matchText)

/-- Spec-side selection, written from the spec's words: walk the matches in
ranked order and include exactly those with a defined score strictly greater
than 0.7. -/
def contextTextsSpec : List RetrievalMatch → List String
  | [] => []
  | m :: rest =>
    match m.score with
    | some s =>
      if (7 : ℚ)/10 < s then matchText m :: contextTextsSpec rest
      else contextTextsSpec rest
    | none => contextTextsSpec rest

theorem filter_passes_eq_contextTextsSpec (ms : List RetrievalMatch) :
    (ms.filter passesThreshold).map matchText = contextTextsSpec ms := by
  induction ms with
  | nil => rfl
  | cons m rest ih =>
    cases h : m.score with
    | none =>
      simp [List.filter_cons, passesThreshold, h, contextTextsSpec, ih]
    | some s =>
      by_cases hs : (7 : ℚ)/10 < s
      · simp [List.filter_cons, passesThreshold, h, hs, contextTextsSpec, ih]
      · simp [List.filter_cons, passesThreshold, h, hs, contextTextsSpec, ih]

/-- C2: the assembled context is exactly the metadata texts of the matches
with score strictly above 0.7 (undefined scores excluded), joined by a
blank-line separator in ranked order; it is empty when no match passes; and
on `[{score: 0.9, text: A}, {score: 0.5, text: B}, {score: undefined, text: C}]`
only the first match contributes. -/
theorem buildContext_correct (ms : List RetrievalMatch) :
    buildContext ms = String.intercalate "\n\n" (contextTextsSpec ms)
    ∧ buildContext (ms.filter (fun m => !passesThreshold m)) = ""
    ∧ buildContext
        [⟨some ((9 : ℚ)/10), some "A"⟩, ⟨some ((1 : ℚ)/2), some "B"⟩,
         ⟨none, some "C"⟩] = "A" := by
  refine ⟨by rw [buildContext, filter_passes_eq_contextTextsSpec], ?_, ?_⟩
  · have h : (ms.filter (fun m => !passesThreshold m)).filter passesThreshold
        = [] := by
      simp [List.filter_filter]
    rw [buildContext, h]
    rfl
  · have h1 : (7 : ℚ)/10 < 9/10 := by norm_num
    have h2 : ¬ ((7 : ℚ)/10 < (2 : ℚ)⁻¹) := by norm_num
    simp [buildContext, List.filter, passesThreshold, matchText, h1, h2]
    rfl

/-! ## Message formatting for the completion call (src/services/ai.ts) -/

/-- `conversationHistory.map(msg => ({role: msg.role, content: msg.content}))`. -/
def toChatMessage (m : Message) : ChatMessage :=
  ⟨m.role, m.content⟩

/-- The message sequence sent to the completion service: the mapped history,
with the prompt pushed as a user message when
`formattedMessages.length === 0 || formattedMessages[last].content !== prompt`
(the source compares only `content`, not `role`). -/
def sendMessages (history : List Message) (prompt : String) : List ChatMessage :=
  let fm := history.map toChatMessage
  match fm.getLast? with
  | none => fm ++ [⟨Role.user, prompt⟩]
  | some lastMsg =>
    if lastMsg.content = prompt then fm else fm ++ [⟨Role.user, prompt⟩]

/-- C9 counterexample: with history `[assistant "hi"]` and prompt `"hi"`, the
content-only tail check suppresses the append, so the final entry sent to the
completion service has role `assistant`, not `user`. -/
theorem sendMessages_last_not_user :
    (sendMessages [⟨"a1", "hi", Role.assistant, 0, none⟩] "hi").getLast?
      = some ⟨Role.assistant, "hi"⟩
    ∧ ∀ cm : ChatMessage,
        (sendMessages [⟨"a1", "hi", Role.assistant, 0, none⟩] "hi").getLast?
          = some cm → cm.role ≠ Role.user := by
  constructor
  · rfl
  · intro cm h
    have : cm = ⟨Role.assistant, "hi"⟩ := by
      rw [show (sendMessages [⟨"a1", "hi", Role.assistant, 0, none⟩] "hi").getLast?
            = some ⟨Role.assistant, "hi"⟩ from rfl] at h
      exact Option.some.inj h |>.symm
    rw [this]
    decide

/-- C9 amended: the sequence sent to the completion service preserves the
history's order (the mapped history is a prefix), its final entry always has
content equal to the prompt, and the prompt is appended as a user message
exactly when the history is empty or the content of its last message differs
from the prompt — when the tail's content already equals the prompt NOTHING is
appended, and since the check compares content only, that final entry may
carry role `assistant`. -/
theorem sendMessages_correct (history : List Message) (prompt : String) :
    ((sendMessages history prompt).getLast?).map ChatMessage.content
      = some prompt
    ∧ history.map toChatMessage <+: sendMessages history prompt
    ∧ sendMessages history prompt
        = (if (history.map toChatMessage).getLast?.any
              (fun cm => cm.content == prompt)
           then history.map toChatMessage
           else history.map toChatMessage ++ [⟨Role.user, prompt⟩]) := by
  unfold sendMessages
  cases h : (history.map toChatMessage).getLast? with
  | none =>
    have he : history.map toChatMessage = [] := by
      rwa [List.getLast?_eq_none_iff] at h
    simp [he]
  | some lastMsg =>
    simp only [h]
    by_cases hc : lastMsg.content = prompt
    · simp only [if_pos hc]
      refine ⟨by simp [h, hc], List.prefix_refl _, ?_⟩
      simp [hc]
    · simp only [if_neg hc]
      refine ⟨by simp, List.prefix_append _ _, ?_⟩
      simp [hc]

/-! ## Conversation history model (src/services/conversations.ts) -/

/-- Renders a role the way the message-id template does. -/
def roleString : Role → String
  | Role.user => "user"
  | Role.assistant => "assistant"

/-- `createMessage(role, content)`: id is the `role-Date.now()-random` template,
timestamp is `Date.now()`, feedback absent.  The clock reading `now` and the
random suffix `rand` are passed in explicitly. -/
def createMessage (role : Role) (content : String) (now : Int) (rand : String) :
    Message :=
  { id := roleString role ++ "-" ++ toString now ++ "-" ++ rand
    content := content
    role := role
    timestamp := now
    feedback := none }

/-- `user?.uid || null` and `user?.email || null`: JavaScript `||` maps the
empty string to `null` as well. -/
def strOrNull (s : Option String) : Option String :=
  match s with
  | some t => if t = "" then none else some t
  | none => none

/-- The `BaseConversation` assembled by `saveConversation` before the store
branch: the new user/assistant pair appended to the given history, with the
denormalized `input`/`response` fields and the identity fields. -/
def saveConversationBase (input response : String) (user : Option User)
    (history : List Message) (t1 t2 : Int) (r1 r2 : String) : BaseConversation :=
  { input := input
    response := response
    createdAt := TimestampValue.server
    userId := strOrNull (user.map User.uid)
    userType := if user.isSome then UserType.auth else UserType.guest
    userEmail := strOrNull (user.bind User.email)
    history := some (history ++
      [createMessage Role.user input t1 r1,
       createMessage Role.assistant response t2 r2]) }

/-- `saveConversation`: for authenticated users the store assigns the id of the
inserted document (`serverId`); for guests the id is `"guest-" + Date.now()`. -/
def saveConversation (input response : String) (user : Option User)
    (history : List Message) (t1 t2 : Int) (r1 r2 : String)
    (serverId : String) (now : Int) : Conversation :=
  let base := saveConversationBase input response user history t1 t2 r1 r2
  { id := match user with
      | some _ => serverId
      | none => "guest-" ++ toString now
    input := base.input
    response := base.response
    createdAt := base.createdAt
    userId := base.userId
    userType := base.userType
    userEmail := base.userEmail
    history := base.history }

/-- Firestore `arrayUnion`: appends, in order, those given elements that are
not already present (also deduplicating among themselves). -/
def arrayUnion {α : Type} [DecidableEq α] (xs : List α) (new : List α) :
    List α :=
  new.foldl (fun acc x => if x ∈ acc then acc else acc ++ [x]) xs

/-- The effect of `updateConversationHistory` on the stored document:
`updateDoc(ref, {history: arrayUnion(userMsg, assistantMsg), input, response})`.
A document without a `history` field gets one holding the new elements. -/
def updateConversationHistoryApply (conv : Conversation)
    (input response : String) (t1 t2 : Int) (r1 r2 : String) : Conversation :=
  { conv with
    history := some (arrayUnion (conv.history.getD [])
      [createMessage Role.user input t1 r1,
       createMessage Role.assistant response t2 r2])
    input := input
    response := response }

theorem arrayUnion_two_fresh {α : Type} [DecidableEq α] (xs : List α)
    (a b : α) (ha : a ∉ xs) (hb : b ∉ xs) (hab : a ≠ b) :
    arrayUnion xs [a, b] = xs ++ [a, b] := by
  unfold arrayUnion
  simp only [List.foldl_cons, List.foldl_nil, if_neg ha]
  rw [if_neg (by simp [hb, hab.symm])]
  simp

/-- C5: appending a new exchange `(u, a)` to a conversation whose stored
history is `[m1, m2]` yields stored history exactly
`[m1, m2, userMsg, assistantMsg]` and rewrites the denormalized
`input`/`response` to `(u, a)` (the fresh messages are assumed absent from the
existing history, as `arrayUnion` skips duplicates); and with no active
conversation, `saveConversation` creates one whose history is exactly the new
user/assistant pair, owned by the current identity. -/
theorem appendExchange_correct (m1 m2 : Message) (u a : String)
    (t1 t2 : Int) (r1 r2 : String) (conv : Conversation) (user : Option User)
    (serverId : String) (now : Int)
    (hh : conv.history = some [m1, m2])
    (hu : createMessage Role.user u t1 r1 ∉ [m1, m2])
    (ha : createMessage Role.assistant a t2 r2 ∉ [m1, m2]) :
    ((updateConversationHistoryApply conv u a t1 t2 r1 r2).history
        = some [m1, m2, createMessage Role.user u t1 r1,
                createMessage Role.assistant a t2 r2]
      ∧ (updateConversationHistoryApply conv u a t1 t2 r1 r2).input = u
      ∧ (updateConversationHistoryApply conv u a t1 t2 r1 r2).response = a)
    ∧ ((saveConversation u a user [] t1 t2 r1 r2 serverId now).history
        = some [createMessage Role.user u t1 r1,
                createMessage Role.assistant a t2 r2]
      ∧ (saveConversation u a user [] t1 t2 r1 r2 serverId now).userId
          = strOrNull (user.map User.uid)
      ∧ (saveConversation u a user [] t1 t2 r1 r2 serverId now).userType
          = (if user.isSome then UserType.auth else UserType.guest)
      ∧ (saveConversation u a user [] t1 t2 r1 r2 serverId now).input = u
      ∧ (saveConversation u a user [] t1 t2 r1 r2 serverId now).response = a) := by
  have hab : createMessage Role.user u t1 r1
      ≠ createMessage Role.assistant a t2 r2 := by
    intro h
    exact Role.noConfusion (congrArg Message.role h)
  constructor
  · refine ⟨?_, rfl, rfl⟩
    unfold updateConversationHistoryApply
    rw [hh]
    simp only [Option.getD_some]
    rw [arrayUnion_two_fresh _ _ _ hu ha hab]
    rfl
  · exact ⟨rfl, rfl, rfl, rfl, rfl⟩

/-- C5 witness: concrete instantiation with two prior messages and fresh
client timestamps. -/
theorem appendExchange_correct_witness :
    ((updateConversationHistoryApply
        { id := "c1", input := "q1", response := "a1",
          createdAt := TimestampValue.server, userId := some "u1",
          userType := UserType.auth, userEmail := some "e@x",
          history := some [createMessage Role.user "q1" 1 "r",
                           createMessage Role.assistant "a1" 2 "s"] }
        "q2" "a2" 3 4 "t" "v").history
      = some [createMessage Role.user "q1" 1 "r",
              createMessage Role.assistant "a1" 2 "s",
              createMessage Role.user "q2" 3 "t",
              createMessage Role.assistant "a2" 4 "v"]) := by
  have h := appendExchange_correct
    (createMessage Role.user "q1" 1 "r") (createMessage Role.assistant "a1" 2 "s")
    "q2" "a2" 3 4 "t" "v"
    { id := "c1", input := "q1", response := "a1",
      createdAt := TimestampValue.server, userId := some "u1",
      userType := UserType.auth, userEmail := some "e@x",
      history := some [createMessage Role.user "q1" 1 "r",
                       createMessage Role.assistant "a1" 2 "s"] }
    none "sid" 9 rfl (by decide) (by decide)
  exact h.1.1

/-! ## Feedback recording (src/services/conversations.ts,
`recordResponseFeedback`) -/

/-- The per-message update `msg.id === messageId ? {...msg, feedback} : msg`. -/
def setFeedbackIfMatch (fb : Option Feedback) (messageId : String)
    (m : Message) : Message :=
  if m.id = messageId then { m with feedback := fb } else m

/-- The guest-path rewrite: every conversation's history is mapped with the
per-message update; a conversation lacking a `history` field ends up with an
empty one (`conv.history?.map(...) || []`). -/
def applyFeedback (fb : Option Feedback) (messageId : String)
    (convs : List Conversation) : List Conversation :=
  convs.map (fun conv =>
    { conv with
      history := some ((conv.history.getD []).map
        (setFeedbackIfMatch fb messageId)) })

/-- The guest-path `updated` flag: some stored message has the given id. -/
def anyMatch (messageId : String) (convs : List Conversation) : Bool :=
  convs.any (fun conv =>
    (conv.history.getD []).any (fun m => m.id = messageId))

/-- Guest branch of `recordResponseFeedback`: on a hit the rewritten
collection is stored back and `true` returned; on a miss nothing is written
and `false` returned. -/
def recordResponseFeedbackGuest (convs : List Conversation)
    (messageId : String) (fb : Option Feedback) :
    List Conversation × Bool :=
  if anyMatch messageId convs
  then (applyFeedback fb messageId convs, true)
  else (convs, false)

/-- A document at `users/{userId}/messages/{messageId}` in the durable store. -/
structure AuthMessageDoc where
  uid : String
  mid : String
  data : Message
deriving DecidableEq, Repr

/-- The combined mutable stores the feedback engine touches: the session-local
guest conversations and the durable per-user message collection. -/
structure Stores where
  guest : List Conversation
  authMessages : List AuthMessageDoc
deriving DecidableEq, Repr

/-- The document reference `doc(db, 'users', userId, 'messages', messageId)`
addresses the documents with these keys. -/
def authKeyMatches (uid messageId : String) (d : AuthMessageDoc) : Bool :=
  d.uid == uid && d.mid == messageId

/-- The field write `updateDoc(ref, {feedback})` applied to one document. -/
def authUpdateDoc (uid messageId : String) (fb : Option Feedback)
    (d : AuthMessageDoc) : AuthMessageDoc :=
  if authKeyMatches uid messageId d
  then { d with data := { d.data with feedback := fb } }
  else d

/-- Authenticated branch: `updateDoc(ref, {feedback})` sets the field on the
addressed document when it exists, and rejects (caught, yielding `false`, no
mutation) when it does not. -/
def recordResponseFeedbackAuth (store : List AuthMessageDoc)
    (uid messageId : String) (fb : Option Feedback) :
    List AuthMessageDoc × Bool :=
  if store.any (authKeyMatches uid messageId)
  then (store.map (authUpdateDoc uid messageId fb), true)
  else (store, false)

/-- `if (!userId)`: JavaScript falsiness treats both `null` and the empty
string as the guest case. -/
def isGuestId : Option String → Bool
  | none => true
  | some s => s = ""

/-- `recordResponseFeedback(userId, messageId, feedback)`: dispatches on the
identity, returns the updated stores and the reported boolean. -/
def recordResponseFeedback (userId : Option String) (st : Stores)
    (messageId : String) (fb : Option Feedback) : Stores × Bool :=
  if isGuestId userId then
    let r := recordResponseFeedbackGuest st.guest messageId fb
    ({ st with guest := r.1 }, r.2)
  else
    match userId with
    | some u =>
      let r := recordResponseFeedbackAuth st.authMessages u messageId fb
      ({ st with authMessages := r.1 }, r.2)
    | none => (st, false)

/-- `recordResponseFeedback` with its storage calls allowed to fail: when
`storageOk` is false the `sessionStorage.setItem` / `updateDoc` call throws,
the surrounding catch returns `false`, and no state is mutated. -/
def recordResponseFeedbackF (userId : Option String) (st : Stores)
    (messageId : String) (fb : Option Feedback) (storageOk : Bool) :
    Stores × Bool :=
  if isGuestId userId then
    if anyMatch messageId st.guest then
      if storageOk
      then ({ st with guest := applyFeedback fb messageId st.guest }, true)
      else (st, false)
    else (st, false)
  else
    match userId with
    | some u =>
      if storageOk then
        let r := recordResponseFeedbackAuth st.authMessages u messageId fb
        ({ st with authMessages := r.1 }, r.2)
      else (st, false)
    | none => (st, false)

/-- Message lookup used to state per-message properties: the `j`-th message of
the `i`-th conversation. -/
def msgAt (convs : List Conversation) (i j : Nat) : Option Message :=
  match convs[i]? with
  | none => none
  | some conv => (conv.history.getD [])[j]?

theorem setFeedbackIfMatch_id (fb : Option Feedback) (mid : String)
    (m : Message) : (setFeedbackIfMatch fb mid m).id = m.id := by
  unfold setFeedbackIfMatch
  split <;> rfl

theorem setFeedbackIfMatch_idem (fb : Option Feedback) (mid : String)
    (m : Message) :
    setFeedbackIfMatch fb mid (setFeedbackIfMatch fb mid m)
      = setFeedbackIfMatch fb mid m := by
  unfold setFeedbackIfMatch
  by_cases h : m.id = mid
  · simp [h]
  · simp [h]

theorem anyMatch_applyFeedback (fb : Option Feedback) (mid : String)
    (convs : List Conversation) :
    anyMatch mid (applyFeedback fb mid convs) = anyMatch mid convs := by
  unfold anyMatch applyFeedback
  rw [List.any_map]
  congr 1
  funext conv
  simp only [Function.comp_apply, Option.getD_some, List.any_map]
  congr 1
  funext m
  simp [setFeedbackIfMatch_id]

theorem applyFeedback_idem (fb : Option Feedback) (mid : String)
    (convs : List Conversation) :
    applyFeedback fb mid (applyFeedback fb mid convs)
      = applyFeedback fb mid convs := by
  unfold applyFeedback
  rw [List.map_map]
  congr 1
  funext conv
  simp [List.map_map, Function.comp_def, setFeedbackIfMatch_idem]

theorem authUpdateDoc_keys (uid mid : String) (fb : Option Feedback)
    (d : AuthMessageDoc) :
    authKeyMatches uid mid (authUpdateDoc uid mid fb d)
      = authKeyMatches uid mid d := by
  unfold authUpdateDoc
  split <;> rfl

theorem authUpdateDoc_idem (uid mid : String) (fb : Option Feedback)
    (d : AuthMessageDoc) :
    authUpdateDoc uid mid fb (authUpdateDoc uid mid fb d)
      = authUpdateDoc uid mid fb d := by
  unfold authUpdateDoc
  by_cases h : authKeyMatches uid mid d
  · simp only [if_pos h]
    rw [if_pos (show authKeyMatches uid mid
      { d with data := { d.data with feedback := fb } } = true from h)]
  · simp only [if_neg h]

theorem recordResponseFeedbackAuth_idem (store : List AuthMessageDoc)
    (uid mid : String) (fb : Option Feedback) :
    (recordResponseFeedbackAuth
        (recordResponseFeedbackAuth store uid mid fb).1 uid mid fb).1
      = (recordResponseFeedbackAuth store uid mid fb).1 := by
  unfold recordResponseFeedbackAuth
  by_cases h : store.any (authKeyMatches uid mid)
  · have hany : (store.map (authUpdateDoc uid mid fb)).any
        (authKeyMatches uid mid) = true := by
      rw [List.any_map]
      calc store.any (authKeyMatches uid mid ∘ authUpdateDoc uid mid fb)
          = store.any (authKeyMatches uid mid) := by
            congr 1
            funext d
            exact authUpdateDoc_keys uid mid fb d
        _ = true := h
    simp only [h, if_pos, hany, List.map_map]
    congr 1
    funext d
    exact authUpdateDoc_idem uid mid fb d
  · simp [h]

/-- C7 counterexample store: one guest conversation holding two messages that
share the id `"x"`. -/
def duplicateIdStore : List Conversation :=
  [{ id := "g1", input := "", response := "", createdAt := TimestampValue.null,
     userId := none, userType := UserType.guest, userEmail := none,
     history := some
       [{ id := "x", content := "first", role := Role.user, timestamp := 1,
          feedback := none },
        { id := "x", content := "second", role := Role.assistant,
          timestamp := 2, feedback := none }] }]

/-- C7 counterexample: with two stored messages sharing id `"x"`, recording
feedback for `"x"` also rewrites the second message — the message after the
first match does not stay unchanged, refuting the only-the-first-match claim. -/
theorem recordFeedback_updates_second_duplicate :
    msgAt (recordResponseFeedbackGuest duplicateIdStore "x"
        (some Feedback.helpful)).1 0 1
      = some { id := "x", content := "second", role := Role.assistant,
               timestamp := 2, feedback := some Feedback.helpful }
    ∧ msgAt duplicateIdStore 0 1
      = some { id := "x", content := "second", role := Role.assistant,
               timestamp := 2, feedback := none } := by
  constructor <;> rfl

/-- C7 amended: for a guest identity, `recordResponseFeedback` rewrites EVERY
stored message whose id equals `messageId` (pointwise: the `j`-th message of
the `i`-th conversation after the call is the original with its feedback
overwritten exactly when its id matches), stores the rewritten collection on a
hit, leaves it untouched on a miss, and returns whether any match was found. -/
theorem recordResponseFeedbackGuest_correct (convs : List Conversation)
    (mid : String) (fb : Option Feedback) (i j : Nat) :
    msgAt (recordResponseFeedbackGuest convs mid fb).1 i j
      = (msgAt convs i j).map (setFeedbackIfMatch fb mid)
    ∧ ((recordResponseFeedbackGuest convs mid fb).2 = true
        ↔ ∃ conv ∈ convs, ∃ m ∈ conv.history.getD [], m.id = mid) := by
  constructor
  · unfold recordResponseFeedbackGuest
    by_cases h : anyMatch mid convs
    · simp only [h, if_pos]
      unfold msgAt applyFeedback
      rw [List.getElem?_map]
      cases hc : convs[i]? with
      | none => rfl
      | some conv => simp [List.getElem?_map]
    · simp only [h, if_neg, Bool.false_eq_true, ite_false]
      unfold msgAt
      cases hc : convs[i]? with
      | none => rfl
      | some conv =>
        dsimp only
        cases hm : (conv.history.getD [])[j]? with
        | none => simp
        | some m =>
          have hconv : conv ∈ convs := List.getElem?_mem hc
          have hmem : m ∈ conv.history.getD [] := List.getElem?_mem hm
          have hid : ¬ (m.id = mid) := by
            intro hid
            apply h
            unfold anyMatch
            rw [List.any_eq_true]
            exact ⟨conv, hconv, by
              rw [List.any_eq_true]
              exact ⟨m, hmem, by simp [hid]⟩⟩
          simp [setFeedbackIfMatch, hid]
  · unfold recordResponseFeedbackGuest
    by_cases h : anyMatch mid convs
    · simp only [h, if_pos, true_iff]
      unfold anyMatch at h
      rw [List.any_eq_true] at h
      obtain ⟨conv, hconv, hc⟩ := h
      rw [List.any_eq_true] at hc
      obtain ⟨m, hm, hid⟩ := hc
      exact ⟨conv, hconv, m, hm, by simpa using hid⟩
    · simp only [h, if_neg, Bool.false_eq_true, ite_false, false_iff]
      intro ⟨conv, hconv, m, hm, hid⟩
      apply h
      unfold anyMatch
      rw [List.any_eq_true]
      exact ⟨conv, hconv, by
        rw [List.any_eq_true]
        exact ⟨m, hm, by simp [hid]⟩⟩

/-- C8: recording the same feedback value for the same message twice in a row
leaves exactly the state reached after recording it once — the write is an
overwrite, for guest and authenticated identities alike. -/
theorem recordResponseFeedback_idem (userId : Option String) (st : Stores)
    (mid : String) (fb : Option Feedback) :
    (recordResponseFeedback userId
        (recordResponseFeedback userId st mid fb).1 mid fb).1
      = (recordResponseFeedback userId st mid fb).1 := by
  unfold recordResponseFeedback
  by_cases hg : isGuestId userId
  · simp only [hg, if_pos]
    unfold recordResponseFeedbackGuest
    by_cases h : anyMatch mid st.guest
    · simp [h, anyMatch_applyFeedback, applyFeedback_idem]
    · simp [h]
  · simp only [hg, if_neg, Bool.false_eq_true, ite_false]
    cases userId with
    | none => rfl
    | some u =>
      simp only
      rw [recordResponseFeedbackAuth_idem]

/-- C10: `recordResponseFeedback` is total at its public interface: when the
storage write fails it returns `false` with both stores unchanged — for any
identity, any store and any `messageId`, matched or not — and in the guest
case a `messageId` that matches no stored message yields `false` without
rewriting the session-local collection. -/
theorem recordResponseFeedback_total (userId : Option String) (st : Stores)
    (mid : String) (fb : Option Feedback) :
    recordResponseFeedbackF userId st mid fb false = (st, false)
    ∧ (anyMatch mid st.guest = false →
        recordResponseFeedback none st mid fb = (st, false)) := by
  constructor
  · unfold recordResponseFeedbackF
    by_cases hg : isGuestId userId
    · simp only [hg, if_pos]
      by_cases h : anyMatch mid st.guest
      · simp [h]
      · simp [h]
    · simp only [hg, if_neg, Bool.false_eq_true, ite_false]
      cases userId with
      | none => rfl
      | some u => simp
  · intro hmiss
    unfold recordResponseFeedback
    simp only [isGuestId, if_pos]
    unfold recordResponseFeedbackGuest
    simp [hmiss]

/-- C10 witness: the storage-failure conjunct is exercised on a guest HIT (the
store holds messages with id `"x"` and the write for `"x"` fails), and the
miss conjunct on the unmatched id `"zz"`. -/
theorem recordResponseFeedback_total_witness :
    recordResponseFeedbackF none
      { guest := duplicateIdStore, authMessages := [] } "x"
      (some Feedback.helpful) false
      = ({ guest := duplicateIdStore, authMessages := [] }, false)
    ∧ recordResponseFeedback none
      { guest := duplicateIdStore, authMessages := [] } "zz"
      (some Feedback.helpful)
      = ({ guest := duplicateIdStore, authMessages := [] }, false) :=
  ⟨(recordResponseFeedback_total none
      { guest := duplicateIdStore, authMessages := [] } "x"
      (some Feedback.helpful)).1,
   (recordResponseFeedback_total none
      { guest := duplicateIdStore, authMessages := [] } "zz"
      (some Feedback.helpful)).2 (by decide)⟩

/-! ## Personalization (src/services/conversations.ts,
`getPersonalizedContext`, guest branch) -/

/-- `conv.history?.filter(msg => msg.feedback === 'helpful') || []`, flattened
over all session-local conversations. -/
def helpfulMessages (convs : List Conversation) : List Message :=
  convs.flatMap (fun conv =>
    (conv.history.getD []).filter (fun m => m.feedback = some Feedback.helpful))

/-- Insertion step of the stable descending sort: the sort below processes the
list right to left, so the inserted message `m` originally precedes every
element of `l`; placing `m` before the first element whose timestamp is `≤`
its own therefore keeps ties in their original relative order, matching the
stable `Array.prototype.sort((a, b) => b.timestamp - a.timestamp)`. -/
def insertByTimestampDesc (m : Message) : List Message → List Message
  | [] => [m]
  | x :: xs =>
    if x.timestamp ≤ m.timestamp then m :: x :: xs
    else x :: insertByTimestampDesc m xs

/-- The stable descending-by-timestamp sort. -/
def sortByTimestampDesc : List Message → List Message
  | [] => []
  | m :: rest => insertByTimestampDesc m (sortByTimestampDesc rest)

/-- The descending comparison the sort establishes. -/
def timestampGE (a b : Message) : Prop :=
  b.timestamp ≤ a.timestamp

theorem insertByTimestampDesc_perm (m : Message) (l : List Message) :
    (insertByTimestampDesc m l).Perm (m :: l) := by
  induction l with
  | nil => exact List.Perm.refl _
  | cons x xs ih =>
    unfold insertByTimestampDesc
    by_cases hc : x.timestamp ≤ m.timestamp
    · rw [if_pos hc]
    · rw [if_neg hc]
      exact (List.Perm.cons x ih).trans (List.Perm.swap m x xs)

theorem insertByTimestampDesc_sorted (m : Message) (l : List Message)
    (h : List.Sorted timestampGE l) :
    List.Sorted timestampGE (insertByTimestampDesc m l) := by
  induction l with
  | nil => simp [insertByTimestampDesc]
  | cons x xs ih =>
    rw [List.sorted_cons] at h
    obtain ⟨hx, hxs⟩ := h
    unfold insertByTimestampDesc
    by_cases hc : x.timestamp ≤ m.timestamp
    · rw [if_pos hc, List.sorted_cons]
      constructor
      · intro b hb
        rcases List.mem_cons.mp hb with hb | hb
        · rw [hb]
          exact hc
        · exact le_trans (hx b hb) hc
      · rw [List.sorted_cons]
        exact ⟨hx, hxs⟩
    · rw [if_neg hc, List.sorted_cons]
      refine ⟨?_, ih hxs⟩
      intro b hb
      rcases List.mem_cons.mp
          ((insertByTimestampDesc_perm m xs).mem_iff.mp hb) with hb2 | hb2
      · rw [hb2]
        exact le_of_lt (lt_of_not_le hc)
      · exact hx b hb2

theorem sortByTimestampDesc_perm (l : List Message) :
    (sortByTimestampDesc l).Perm l := by
  induction l with
  | nil => exact List.Perm.refl _
  | cons m rest ih =>
    unfold sortByTimestampDesc
    exact (insertByTimestampDesc_perm m (sortByTimestampDesc rest)).trans
      (List.Perm.cons m ih)

theorem sortByTimestampDesc_sorted (l : List Message) :
    List.Sorted timestampGE (sortByTimestampDesc l) := by
  induction l with
  | nil => simp [sortByTimestampDesc]
  | cons m rest ih => exact insertByTimestampDesc_sorted m _ ih

/-- The fixed preamble of the personalized-context template literal. -/
def personalizationHeader : String :=
  "Based on your previous positive interactions, these topics were helpful to you:\n"

/-- Guest branch of `getPersonalizedContext`: empty string when no stored
message is flagged helpful; otherwise the header followed by the contents of
the three most recently timestamped helpful messages, most recent first,
joined by blank lines. -/
def getPersonalizedContextGuest (convs : List Conversation) : String :=
  if (helpfulMessages convs).length = 0 then ""
  else
    personalizationHeader ++
      String.intercalate "\n\n"
        (((sortByTimestampDesc (helpfulMessages convs)).take 3).map
          Message.content)

theorem sortByTimestampDesc_four (a b c d : Message)
    (hab : a.timestamp < b.timestamp) (hbc : b.timestamp < c.timestamp)
    (hcd : c.timestamp < d.timestamp) :
    sortByTimestampDesc [a, b, c, d] = [d, c, b, a] := by
  have hac := lt_trans hab hbc
  have hbd := lt_trans hbc hcd
  have had := lt_trans hab hbd
  simp only [sortByTimestampDesc, insertByTimestampDesc]
  rw [if_neg (not_le.mpr hcd)]
  simp only [insertByTimestampDesc]
  rw [if_neg (not_le.mpr hbd), if_neg (not_le.mpr hbc)]
  simp only [insertByTimestampDesc]
  rw [if_neg (not_le.mpr had), if_neg (not_le.mpr hac),
    if_neg (not_le.mpr hab)]

/-- C6 counterexample store: one guest conversation with a single
helpful-flagged message whose content is `"X"`. -/
def singleHelpfulStore : List Conversation :=
  [{ id := "g1", input := "", response := "", createdAt := TimestampValue.null,
     userId := none, userType := UserType.guest, userEmail := none,
     history := some
       [{ id := "m1", content := "X", role := Role.assistant, timestamp := 1,
          feedback := some Feedback.helpful }] }]

/-- C6 counterexample: with exactly one helpful message of content `"X"`, the
returned text is the fixed preamble plus `"X"`, not the bare joined contents
`"X"` the claim describes. -/
theorem getPersonalizedContextGuest_not_bare :
    getPersonalizedContextGuest singleHelpfulStore
      = "Based on your previous positive interactions, these topics were helpful to you:\nX"
    ∧ getPersonalizedContextGuest singleHelpfulStore ≠ "X" := by
  constructor
  · rfl
  · intro h
    exact absurd (congrArg String.length h) (by decide)

/-- C6 amended: for a guest identity, `getPersonalizedContext` returns the
empty string when no stored message is flagged helpful; otherwise it returns
the fixed preamble followed by the contents of the 3 most recently timestamped
helpful-flagged messages (across all session-local conversations), most recent
first, joined by a blank-line separator: for every store, the selection is the
first three contents of a descending-by-timestamp reordering of all helpful
messages — e.g. with 4 helpful guest messages timestamped increasingly, the
part after the preamble is the 3 most recent joined by blank lines. -/
theorem getPersonalizedContextGuest_correct (convs : List Conversation)
    (c1 c2 c3 c4 : String) (t1 t2 t3 t4 : Int)
    (h12 : t1 < t2) (h23 : t2 < t3) (h34 : t3 < t4) :
    (helpfulMessages convs = [] → getPersonalizedContextGuest convs = "")
    ∧ (sortByTimestampDesc (helpfulMessages convs)).Perm
        (helpfulMessages convs)
    ∧ List.Sorted timestampGE (sortByTimestampDesc (helpfulMessages convs))
    ∧ (helpfulMessages convs ≠ [] →
        getPersonalizedContextGuest convs
          = personalizationHeader ++
              String.intercalate "\n\n"
                (((sortByTimestampDesc (helpfulMessages convs)).take 3).map
                  Message.content))
    ∧ getPersonalizedContextGuest
        [{ id := "g1", input := "", response := "",
           createdAt := TimestampValue.null, userId := none,
           userType := UserType.guest, userEmail := none,
           history := some
             [{ id := "m1", content := c1, role := Role.assistant,
                timestamp := t1, feedback := some Feedback.helpful },
              { id := "m2", content := c2, role := Role.assistant,
                timestamp := t2, feedback := some Feedback.helpful },
              { id := "m3", content := c3, role := Role.assistant,
                timestamp := t3, feedback := some Feedback.helpful },
              { id := "m4", content := c4, role := Role.assistant,
                timestamp := t4, feedback := some Feedback.helpful }] }]
      = personalizationHeader ++ String.intercalate "\n\n" [c4, c3, c2] := by
  refine ⟨?_, sortByTimestampDesc_perm _, sortByTimestampDesc_sorted _, ?_, ?_⟩
  · intro hnone
    unfold getPersonalizedContextGuest
    rw [hnone]
    rfl
  · intro hne
    unfold getPersonalizedContextGuest
    rw [if_neg (by simpa [List.length_eq_zero] using hne)]
  · have hlist : helpfulMessages
        [{ id := "g1", input := "", response := "",
           createdAt := TimestampValue.null, userId := none,
           userType := UserType.guest, userEmail := none,
           history := some
             [{ id := "m1", content := c1, role := Role.assistant,
                timestamp := t1, feedback := some Feedback.helpful },
              { id := "m2", content := c2, role := Role.assistant,
                timestamp := t2, feedback := some Feedback.helpful },
              { id := "m3", content := c3, role := Role.assistant,
                timestamp := t3, feedback := some Feedback.helpful },
              { id := "m4", content := c4, role := Role.assistant,
                timestamp := t4, feedback := some Feedback.helpful }] }]
        = [{ id := "m1", content := c1, role := Role.assistant,
             timestamp := t1, feedback := some Feedback.helpful },
           { id := "m2", content := c2, role := Role.assistant,
             timestamp := t2, feedback := some Feedback.helpful },
           { id := "m3", content := c3, role := Role.assistant,
             timestamp := t3, feedback := some Feedback.helpful },
           { id := "m4", content := c4, role := Role.assistant,
             timestamp := t4, feedback := some Feedback.helpful }] := rfl
    unfold getPersonalizedContextGuest
    rw [hlist, if_neg (by simp),
      sortByTimestampDesc_four _ _ _ _ h12 h23 h34]
    rfl

/-- C6 witness: the empty store yields `""`, a one-helpful-message store hits
the non-empty branch, and four helpful messages with contents `a ... d` at
increasing timestamps 1 to 4 yield the preamble plus `d`, `c`, `b` blank-line
joined. -/
theorem getPersonalizedContextGuest_correct_witness :
    getPersonalizedContextGuest [] = ""
    ∧ getPersonalizedContextGuest singleHelpfulStore
        = personalizationHeader ++
            String.intercalate "\n\n"
              (((sortByTimestampDesc
                  (helpfulMessages singleHelpfulStore)).take 3).map
                Message.content)
    ∧ getPersonalizedContextGuest
        [{ id := "g1", input := "", response := "",
           createdAt := TimestampValue.null, userId := none,
           userType := UserType.guest, userEmail := none,
           history := some
             [{ id := "m1", content := "a", role := Role.assistant,
                timestamp := 1, feedback := some Feedback.helpful },
              { id := "m2", content := "b", role := Role.assistant,
                timestamp := 2, feedback := some Feedback.helpful },
              { id := "m3", content := "c", role := Role.assistant,
                timestamp := 3, feedback := some Feedback.helpful },
              { id := "m4", content := "d", role := Role.assistant,
                timestamp := 4, feedback := some Feedback.helpful }] }]
      = personalizationHeader ++ String.intercalate "\n\n" ["d", "c", "b"] := by
  have h1 := getPersonalizedContextGuest_correct [] "a" "b" "c" "d" 1 2 3 4
    (by decide) (by decide) (by decide)
  have h2 := getPersonalizedContextGuest_correct singleHelpfulStore
    "a" "b" "c" "d" 1 2 3 4 (by decide) (by decide) (by decide)
  exact ⟨h1.1 rfl, h2.2.2.2.1 (by decide), h1.2.2.2.2⟩

/-! ## Guest-to-authenticated migration (src/services/conversations.ts
`transferGuestConversations`, src/App.tsx `handleGuestToAuthTransition`) -/

/-- The document `transferGuestConversations` inserts for one guest
conversation: the client id is stripped by the destructuring, the ownership
fields are overwritten after the spread, and `createdAt` becomes the server
timestamp sentinel. -/
def transferredDoc (user : User) (conv : Conversation) : BaseConversation :=
  { input := conv.input
    response := conv.response
    createdAt := TimestampValue.server
    userId := some user.uid
    userType := UserType.auth
    userEmail := user.email
    history := conv.history }

/-- `transferGuestConversations(guestConversations, user)`: the batch of
documents handed to `addDoc`, one per guest conversation, in order. -/
def transferGuestConversations (guestConversations : List Conversation)
    (user : User) : List BaseConversation :=
  guestConversations.map (transferredDoc user)

/-- The App component state the transition handler touches. -/
structure AppState where
  guestConversations : List Conversation
  authConversations : List Conversation
  activeConversationId : Option String
  conversationHistory : List Message
  showClearButton : Bool
  errorMessage : Option String
  showError : Bool
deriving DecidableEq, Repr

/-- The banner text of the migration failure path. -/
def transferErrorText : String :=
  "Error transferring conversations. Your guest conversations are still available."

/-- `handleGuestToAuthTransition` (user already signed in): does nothing
without guest conversations; on transfer success stores the batch, replaces
the auth list with the reloaded `reloaded`, clears the session-local guest
list and resets the active-conversation pointers; on transfer failure only
displays the non-fatal banner (any documents inserted before the rejection,
`partialInserts`, remain in the store — `Promise.all` does not roll back). -/
def handleGuestToAuthTransition (st : AppState)
    (store : List BaseConversation) (user : User) (transferOk : Bool)
    (reloaded : List Conversation)
    (partialInserts : List BaseConversation) :
    AppState × List BaseConversation :=
  if st.guestConversations.length = 0 then (st, store)
  else if transferOk then
    ({ st with
        authConversations := reloaded
        guestConversations := []
        activeConversationId := none
        conversationHistory := []
        showClearButton := false },
      store ++ transferGuestConversations st.guestConversations user)
  else
    ({ st with errorMessage := some transferErrorText, showError := true },
      store ++ partialInserts)

/-- C3: when the migration fails, the session-local guest store still holds
all original guest conversations (the clearing branch is never reached) and a
non-fatal error banner is surfaced. -/
theorem migration_failure_preserves_guest (st : AppState)
    (store : List BaseConversation) (user : User)
    (reloaded : List Conversation) (partialInserts : List BaseConversation)
    (hg : st.guestConversations ≠ []) :
    (handleGuestToAuthTransition st store user false reloaded
        partialInserts).1.guestConversations = st.guestConversations
    ∧ (handleGuestToAuthTransition st store user false reloaded
        partialInserts).1.showError = true
    ∧ (handleGuestToAuthTransition st store user false reloaded
        partialInserts).1.errorMessage = some transferErrorText := by
  unfold handleGuestToAuthTransition
  rw [if_neg (by simpa using hg)]
  exact ⟨rfl, rfl, rfl⟩

/-- C3 witness: two guest conversations, simulated persistence failure. -/
theorem migration_failure_preserves_guest_witness :
    (handleGuestToAuthTransition
        { guestConversations := duplicateIdStore ++ singleHelpfulStore,
          authConversations := [], activeConversationId := some "g1",
          conversationHistory := [], showClearButton := true,
          errorMessage := none, showError := false }
        [] ⟨"u9", some "u@x"⟩ false [] []).1.guestConversations
      = duplicateIdStore ++ singleHelpfulStore :=
  (migration_failure_preserves_guest
    { guestConversations := duplicateIdStore ++ singleHelpfulStore,
      authConversations := [], activeConversationId := some "g1",
      conversationHistory := [], showClearButton := true,
      errorMessage := none, showError := false }
    [] ⟨"u9", some "u@x"⟩ [] [] (by decide)).1

/-- C4: on sign-in with guest conversations present and a fully successful
transfer, one document per guest conversation is inserted, each owned by the
authenticated identity (`userId` the uid, `userType` auth, `userEmail` the
user's email) with a fresh server timestamp; the session-local store is
cleared and the active-conversation pointers reset. -/
theorem migration_success_rewrites_ownership (st : AppState)
    (store : List BaseConversation) (user : User)
    (reloaded : List Conversation) (partialInserts : List BaseConversation)
    (hg : st.guestConversations ≠ []) :
    (handleGuestToAuthTransition st store user true reloaded
        partialInserts).2
      = store ++ transferGuestConversations st.guestConversations user
    ∧ (transferGuestConversations st.guestConversations user).length
        = st.guestConversations.length
    ∧ (∀ d ∈ transferGuestConversations st.guestConversations user,
        d.userId = some user.uid ∧ d.userType = UserType.auth
        ∧ d.userEmail = user.email ∧ d.createdAt = TimestampValue.server)
    ∧ (handleGuestToAuthTransition st store user true reloaded
        partialInserts).1.guestConversations = []
    ∧ (handleGuestToAuthTransition st store user true reloaded
        partialInserts).1.activeConversationId = none
    ∧ (handleGuestToAuthTransition st store user true reloaded
        partialInserts).1.conversationHistory = [] := by
  unfold handleGuestToAuthTransition
  rw [if_neg (by simpa using hg)]
  refine ⟨rfl, by simp [transferGuestConversations], ?_, rfl, rfl, rfl⟩
  intro d hd
  unfold transferGuestConversations at hd
  rw [List.mem_map] at hd
  obtain ⟨conv, _, hconv⟩ := hd
  rw [← hconv]
  exact ⟨rfl, rfl, rfl, rfl⟩

/-- C4 witness: two guest conversations migrate to user `u9`; the durable
store receives 2 documents and the session-local store is cleared. -/
theorem migration_success_rewrites_ownership_witness :
    (transferGuestConversations (duplicateIdStore ++ singleHelpfulStore)
        ⟨"u9", some "u@x"⟩).length = 2
    ∧ (handleGuestToAuthTransition
        { guestConversations := duplicateIdStore ++ singleHelpfulStore,
          authConversations := [], activeConversationId := some "g1",
          conversationHistory := [], showClearButton := true,
          errorMessage := none, showError := false }
        [] ⟨"u9", some "u@x"⟩ true [] []).1.guestConversations = [] := by
  have h := migration_success_rewrites_ownership
    { guestConversations := duplicateIdStore ++ singleHelpfulStore,
      authConversations := [], activeConversationId := some "g1",
      conversationHistory := [], showClearButton := true,
      errorMessage := none, showError := false }
    [] ⟨"u9", some "u@x"⟩ [] [] (by decide)
  exact ⟨h.2.1, h.2.2.2.1⟩

/-! ## Enhanced embedding (src/services/embeddings.ts,
`generateEnhancedEmbedding`) -/

/-- The weighted combination
`originalEmbedding.map((val, idx) => val * 0.7 + expandedEmbedding[idx] * 0.3)`
(vectors of the service's fixed dimension; a missing component reads as 0). -/
noncomputable def combineEmbeddings (e0 e1 : List ℝ) : List ℝ :=
  e0.mapIdx (fun i v => v * (7/10) + e1.getD i 0 * (3/10))

/-- `combinedEmbedding.reduce((sum, val) => sum + val * val, 0)`. -/
noncomputable def sumSquares (c : List ℝ) : ℝ :=
  c.foldl (fun s v => s + v * v) 0

/-- `Math.sqrt(...)` of the sum of squares. -/
noncomputable def magnitude (c : List ℝ) : ℝ :=
  Real.sqrt (sumSquares c)

/-- Steps 5-6 of `generateEnhancedEmbedding` for a query whose expansion
differs: combine, then `combinedEmbedding.map(val => val / magnitude)` — the
division is performed unconditionally, there is no zero-magnitude branch in
the source. -/
noncomputable def generateEnhancedEmbeddingCombine (e0 e1 : List ℝ) : List ℝ :=
  (combineEmbeddings e0 e1).map
    (fun v => v / magnitude (combineEmbeddings e0 e1))

/-- C1 counterexample: `e0 = [3]`, `e1 = [-7]` give the combined vector `[0]`
of zero L2 norm, and the returned vector is not `e0` — the code divides by the
zero magnitude instead of falling back (in the real-valued model each
component becomes `0 / 0 = 0`; in IEEE arithmetic, NaN). -/
theorem enhancedEmbedding_zero_magnitude_not_e0 :
    sumSquares (combineEmbeddings [(3 : ℝ)] [(-7 : ℝ)]) = 0
    ∧ generateEnhancedEmbeddingCombine [(3 : ℝ)] [(-7 : ℝ)] ≠ [(3 : ℝ)] := by
  have hc : combineEmbeddings [(3 : ℝ)] [(-7 : ℝ)] = [0] := by
    simp [combineEmbeddings, List.mapIdx_cons, List.mapIdx_nil]
    norm_num
  constructor
  · rw [hc]
    simp [sumSquares]
  · unfold generateEnhancedEmbeddingCombine
    rw [hc]
    simp only [List.map_cons, List.map_nil, zero_div]
    intro h
    rw [List.cons.injEq] at h
    exact absurd h.1 (by norm_num)

/-- C1 amended: `generateEnhancedEmbedding` has no zero-magnitude guard — when
the combined vector `0.7*e0 + 0.3*e1` has zero L2 norm it divides each
component by the zero magnitude anyway, returning (in the real-valued model)
the all-zero vector of `e0`'s dimension rather than `e0`; in IEEE floats the
components are `0/0 = NaN`. -/
theorem enhancedEmbedding_zero_magnitude (e0 e1 : List ℝ)
    (h : sumSquares (combineEmbeddings e0 e1) = 0) :
    generateEnhancedEmbeddingCombine e0 e1 = List.replicate e0.length 0 := by
  unfold generateEnhancedEmbeddingCombine magnitude
  rw [h, Real.sqrt_zero]
  simp only [div_zero]
  rw [List.map_const']
  simp [combineEmbeddings]

/-- C1 amended witness: the degenerate pair `[3]`, `[-7]` hits the
zero-magnitude case and the returned vector is the zero vector. -/
theorem enhancedEmbedding_zero_magnitude_witness :
    sumSquares (combineEmbeddings [(3 : ℝ)] [(-7 : ℝ)]) = 0
    ∧ generateEnhancedEmbeddingCombine [(3 : ℝ)] [(-7 : ℝ)]
        = List.replicate 1 0 := by
  have hs : sumSquares (combineEmbeddings [(3 : ℝ)] [(-7 : ℝ)]) = 0 := by
    simp [combineEmbeddings, sumSquares, List.mapIdx_cons, List.mapIdx_nil]
    norm_num
  exact ⟨hs, enhancedEmbedding_zero_magnitude [(3 : ℝ)] [(-7 : ℝ)] hs⟩

end Cabej
